import Mathlib

/-
  Verification development for the leobrain-backend crawl engine
  (crawlers/core): value types, anti-bot middleware, fetcher with
  robots.txt handling and retry/backoff, storage pipeline, RSS source
  adapter and the frontier engine, shallowly embedded in Lean.
-/

namespace LeoBrain

/-- A URL, modeled structurally by its `urlparse` components
(scheme, netloc, path); query/fragment and percent-quoting are elided. -/
structure Url where
  scheme : String
  host : String
  path : String
deriving DecidableEq, Repr

/-- The `{parsed.scheme}://{parsed.netloc}` domain key used by the fetcher's
robots cache (fetcher.py line 62). -/
def Url.domain (u : Url) : String := u.scheme ++ "://" ++ u.host

/-- The URL rendered back to the string form carried by items. -/
def Url.render (u : Url) : String := u.scheme ++ "://" ++ u.host ++ u.path

/-- The `Request.metadata` dict (types.py line 27), restricted to the keys the
engine and the RSS spider actually read. -/
structure RequestMeta where
  source : Option String := none
  isFeed : Bool := false
  fetchFull : Bool := false
  originalItemUrl : Option String := none
deriving DecidableEq, Repr

/-- HTTP request value (types.py `Request`); `params`/`data`/`json` payloads are
elided (never read by the embedded code paths). -/
structure Request where
  url : Url
  method : String := "GET"
  headers : Option (List (String × String)) := none
  useRender : Bool := false
  metadata : RequestMeta := {}
deriving DecidableEq, Repr

/-- HTTP response value (types.py `Response`); `body` is already the decoded
text (`Response.text`). -/
structure Response where
  url : Url
  status : Nat
  body : String
  request : Request
deriving DecidableEq, Repr

/-- Crawled item (types.py `Item`). `lang` stands for
`item.metadata.get('lang', 'en')`, the only metadata key the pipeline reads;
the feed-bookkeeping metadata keys are elided. -/
structure Item where
  url : String
  title : String
  body : String
  source : String
  author : Option String := none
  publishedAt : Option Nat := none
  lang : String := "en"
deriving DecidableEq, Repr

/-! ## Storage pipeline (crawlers/core/pipelines.py) -/

/-- Metadata record inserted by the pipeline (the fields of `common.models.Content`
that `StoragePipeline.process_item` sets, pipelines.py lines 73-82). -/
structure Content where
  source : String
  url : String
  title : String
  author : Option String
  publishedAt : Option Nat
  bodyRef : String
  contentUuid : String
  lang : String
deriving DecidableEq, Repr

/-- An object stored in the blob store by `storage.upload_content`. -/
structure BlobObject where
  objectName : String
  body : String
  contentType : String
deriving DecidableEq, Repr

/-- Joint state of the metadata store and the blob store. `nextUuid` models the
`uuid.uuid4()` generator as a counter handing out fresh identifiers. -/
structure StoreState where
  db : List Content
  blobs : List BlobObject
  nextUuid : Nat
deriving DecidableEq, Repr

/-- Fault injection for the external storage collaborators: whether
`storage.upload_content` or the DB `add`/`commit` raises for a given item. -/
structure Faults where
  uploadRaises : Item → Bool
  insertRaises : Item → Bool

/-- Rendering of the uuid counter as an identifier string. -/
def uuidStr (n : Nat) : String := "uuid-" ++ toString n

/-- Blob path derived by `storage.upload_content`: `{source}/{uuid}.txt`. -/
def objectNameFor (source uuid : String) : String := source ++ "/" ++ uuid ++ ".txt"

/-- Embeds `StoragePipeline.process_item` (pipelines.py lines 39-101): skip when a
record with the same URL exists; otherwise draw a uuid, upload the body to the
blob store, then insert the metadata record. Any exception from the upload or
the insert rolls the metadata transaction back (the blob written before a
failing insert stays) and the item counts as not-success. -/
def processItem (f : Faults) (item : Item) (s : StoreState) : Bool × StoreState :=
  if s.db.any (fun c => c.url == item.url) then
    (false, s)
  else
    let contentUuid := uuidStr s.nextUuid
    if f.uploadRaises item then
      (false, { s with nextUuid := s.nextUuid + 1 })
    else
      let objectName := objectNameFor item.source contentUuid
      let blobs' := s.blobs ++ [⟨objectName, item.body, "text/plain"⟩]
      if f.insertRaises item then
        (false, { s with blobs := blobs', nextUuid := s.nextUuid + 1 })
      else
        (true,
         { db := s.db ++ [⟨item.source, item.url, item.title, item.author,
                           item.publishedAt, objectName, contentUuid, item.lang⟩],
           blobs := blobs',
           nextUuid := s.nextUuid + 1 })

/-- Embeds `StoragePipeline.process_items` (pipelines.py lines 104-110): fold
`process_item` over the batch, counting successes. -/
def processItems (f : Faults) : List Item → StoreState → Nat × StoreState
  | [], s => (0, s)
  | item :: rest, s =>
      let r := processItem f item s
      let rr := processItems f rest r.2
      ((if r.1 then 1 else 0) + rr.1, rr.2)

/-- Number of metadata records stored under a given URL. -/
def countUrl (s : StoreState) (url : String) : Nat :=
  (s.db.filter (fun c => c.url == url)).length

/-! ## Anti-bot middleware (crawlers/core/anti_bot.py) -/

/-- Embeds `AntiBotMiddleware` configuration (anti_bot.py lines 39-48). -/
structure AntiBotMiddleware where
  qps : Option ℚ
  delay : ℚ
  jitter : Bool := true
deriving DecidableEq, Repr

/-- The rate limiter held by the middleware:
`self.limiter = RateLimiter(qps) if qps else None` (anti_bot.py line 48) —
Python truthiness makes `qps = None` and `qps = 0.0` both produce no limiter. -/
def AntiBotMiddleware.limiter (m : AntiBotMiddleware) : Option ℚ :=
  match m.qps with
  | none => none
  | some q => if q = 0 then none else some q

/-- One suspension performed by `before_request`: either a token acquisition on
the rate limiter, or an `asyncio.sleep` of the given duration (seconds). -/
inductive WaitAction where
  | acquireToken (qps : ℚ)
  | sleep (t : ℚ)
deriving DecidableEq, Repr

/-- Embeds `AntiBotMiddleware.before_request` (anti_bot.py lines 50-59) as the ordered
sequence of suspensions it performs. `jitterSample` is the value drawn by
`random.uniform(0, 0.5)` when jitter is consulted. -/
def beforeRequest (m : AntiBotMiddleware) (jitterSample : ℚ) : List WaitAction :=
  (match m.limiter with
   | some q => [WaitAction.acquireToken q]
   | none => []) ++
  (if 0 < m.delay then
     [WaitAction.sleep (m.delay + (if m.jitter then jitterSample else 0))]
   else [])

/-- Modelled from the spec (claim C7 refinement reference): "before_request
sleeps a fixed delay plus, if jitter is enabled, a uniformly random extra delay
in [0, 0.5s)", with both constraints paid sequentially on every call, for
every configured delay value. The sleep is unconditional here, unlike the
source's `if self.delay > 0` guard. -/
def beforeRequestSpec (m : AntiBotMiddleware) (jitterSample : ℚ) : List WaitAction :=
  (match m.limiter with
   | some q => [WaitAction.acquireToken q]
   | none => []) ++
  [WaitAction.sleep (m.delay + (if m.jitter then jitterSample else 0))]

/-! ## Robots rules (urllib.robotparser, as used by fetcher.py)

The fetcher delegates robots decisions to the standard library's
`RobotFileParser`; its state and `can_fetch` decision procedure are embedded
here (percent-quoting and the `"/"`-fallback for an empty path are elided,
substring agent matching keeps Python's lowercase/name-token handling). -/

/-- One `Allow:`/`Disallow:` line (`robotparser.RuleLine`); `allowance` is
true for `Allow`. -/
structure RuleLine where
  path : String
  allowance : Bool
deriving DecidableEq, Repr

/-- A user-agent group with its rule lines (`robotparser.Entry`). -/
structure RobotsEntry where
  useragents : List String
  rulelines : List RuleLine
deriving DecidableEq, Repr

/-- State of a `RobotFileParser`. `lastChecked` is the boolean shadow of the
`last_checked` timestamp: it becomes true only when a robots.txt body was
successfully fetched and parsed (`parse` calls `modified`). -/
structure RobotFileParser where
  lastChecked : Bool
  disallowAll : Bool
  allowAll : Bool
  entries : List RobotsEntry
  defaultEntry : Option RobotsEntry
deriving DecidableEq, Repr

/-- A freshly constructed `RobotFileParser()`: never read, `last_checked = 0`. -/
def RobotFileParser.fresh : RobotFileParser :=
  { lastChecked := false, disallowAll := false, allowAll := false,
    entries := [], defaultEntry := none }

/-- Lowercasing, written over the character list. -/
def lowerStr (s : String) : String := ⟨s.toList.map Char.toLower⟩

/-- Embeds `useragent.split("/")[0]`: the part before the first slash. -/
def nameToken (s : String) : String := ⟨s.toList.takeWhile (fun c => c ≠ '/')⟩

/-- Python's `pat in hay` substring test (over character lists; false for the
empty pattern, which never arises for robots user-agent tokens). -/
def containsStr (hay pat : String) : Bool :=
  hay.toList.tails.any (fun t => pat.toList.isPrefixOf t)

/-- Embeds `Entry.applies_to`: the request user-agent's name token, lowercased,
matched against the group's agents; `"*"` is the catch-all, other agents match
by substring. -/
def RobotsEntry.appliesTo (e : RobotsEntry) (useragent : String) : Bool :=
  let ua := lowerStr (nameToken useragent)
  e.useragents.any (fun agent => agent == "*" || containsStr ua (lowerStr agent))

/-- Embeds `RuleLine.applies_to`: the path `"*"` matches everything, otherwise prefix
match on the url path (over character lists). -/
def RuleLine.appliesTo (l : RuleLine) (filename : String) : Bool :=
  l.path == "*" || l.path.toList.isPrefixOf filename.toList

/-- Embeds `Entry.allowance`: the first applicable rule line wins; no match allows. -/
def RobotsEntry.allowance (e : RobotsEntry) (filename : String) : Bool :=
  match e.rulelines.find? (fun l => l.appliesTo filename) with
  | some l => l.allowance
  | none => true

/-- Embeds `RobotFileParser.can_fetch`: `disallow_all`/`allow_all` short-circuit;
a parser that was never successfully read (`last_checked` falsy) denies
everything; otherwise the first entry applying to the user-agent decides,
then the default entry, and an unmatched agent is allowed. -/
def RobotFileParser.canFetch (rp : RobotFileParser) (useragent : String) (u : Url) : Bool :=
  if rp.disallowAll then false
  else if rp.allowAll then true
  else if !rp.lastChecked then false
  else
    match rp.entries.find? (fun e => e.appliesTo useragent) with
    | some e => e.allowance u.path
    | none =>
      match rp.defaultEntry with
      | some e => e.allowance u.path
      | none => true

/-- Outcome of the network access `RobotFileParser.read` performs on
`{domain}/robots.txt`. -/
inductive RobotsTxtResult where
  | ok (entries : List RobotsEntry) (defaultEntry : Option RobotsEntry)
  | httpError (code : Nat)
  | networkError
deriving DecidableEq, Repr

/-- Embeds `RobotFileParser.read` applied to a fetch outcome: a parsed body marks the
parser read; `HTTPError` 401/403 sets `disallow_all`, other 4xx sets
`allow_all` (neither marks it read); any other exception (DNS failure,
connection refused, ...) propagates out of `read()`, modeled as `none`. -/
def robotsRead (r : RobotsTxtResult) : Option RobotFileParser :=
  match r with
  | .ok entries default =>
      some { lastChecked := true, disallowAll := false, allowAll := false,
             entries := entries, defaultEntry := default }
  | .httpError code =>
      if code == 401 || code == 403 then
        some { RobotFileParser.fresh with disallowAll := true }
      else if 400 ≤ code ∧ code < 500 then
        some { RobotFileParser.fresh with allowAll := true }
      else some RobotFileParser.fresh
  | .networkError => none

/-! ## Fetcher (crawlers/core/fetcher.py `HttpxFetcher`) -/

/-- Embeds `HttpxFetcher` state (fetcher.py lines 36-53); `robotParsers` is the
per-domain robots cache (an association list standing for the dict). The
source stores `respect_robots` under the misspelled attribute
`respect_rebots`. -/
structure HttpxFetcher where
  timeout : Nat := 30
  maxRetries : Nat := 3
  defaultHeaders : List (String × String) := []
  respectRobots : Bool := true
  robotParsers : List (String × RobotFileParser) := []
deriving DecidableEq, Repr

/-- Embeds `HttpxFetcher._get_robots_parser` (fetcher.py lines 56-78). `robots` is the
network oracle for `{domain}/robots.txt`. On a cache miss the parser produced
by `read()` is cached; when `read()` raises, a fresh (never-read) parser is
cached instead, so the domain is not re-queried. -/
def getRobotsParser (f : HttpxFetcher) (robots : String → RobotsTxtResult)
    (u : Url) : Option RobotFileParser × HttpxFetcher :=
  if !f.respectRobots then (none, f)
  else
    let domain := u.domain
    match f.robotParsers.lookup domain with
    | some rp => (some rp, f)
    | none =>
        let rp := match robotsRead (robots domain) with
                  | some rp => rp
                  | none => RobotFileParser.fresh
        (some rp, { f with robotParsers := (domain, rp) :: f.robotParsers })

/-- Embeds `HttpxFetcher.can_fetch` (fetcher.py lines 80-89). -/
def canFetch (f : HttpxFetcher) (robots : String → RobotsTxtResult)
    (u : Url) (userAgent : String) : Bool × HttpxFetcher :=
  if !f.respectRobots then (true, f)
  else
    match getRobotsParser f robots u with
    | (none, f') => (true, f')
    | (some rp, f') => (rp.canFetch userAgent u, f')

/-- Outcome of one `client.request` + `raise_for_status` exchange. -/
inductive HttpResult where
  | success (status : Nat) (body : String)
  | statusError (code : Nat)
  | transportError
deriving DecidableEq, Repr

/-- Observable network-side events of one `fetch` call: an issued HTTP attempt
(0-based index), or a backoff sleep of the given number of seconds. -/
inductive FetchEvent where
  | httpAttempt (n : Nat)
  | sleep (seconds : Nat)
deriving DecidableEq, Repr

/-- The retry loop of `HttpxFetcher.fetch` (fetcher.py lines 121-161): up to
`maxRetries` attempts; 2xx returns a Response; status 429/500 sleeps
`2^attempt` seconds and retries (even on the last attempt the sleep is paid
before the loop exhausts); any other HTTP status returns `None` at once;
a transport exception sleeps and retries unless it was the last attempt.
`http n` is the outcome of attempt `n`. -/
def fetchLoop (http : Nat → HttpResult) (maxRetries : Nat) (req : Request)
    (attempt : Nat) : Option Response × List FetchEvent :=
  if _h : attempt < maxRetries then
    match http attempt with
    | .success status body =>
        (some ⟨req.url, status, body, req⟩, [.httpAttempt attempt])
    | .statusError code =>
        if code = 429 ∨ code = 500 then
          let r := fetchLoop http maxRetries req (attempt + 1)
          (r.1, .httpAttempt attempt :: .sleep (2 ^ attempt) :: r.2)
        else (none, [.httpAttempt attempt])
    | .transportError =>
        if attempt < maxRetries - 1 then
          let r := fetchLoop http maxRetries req (attempt + 1)
          (r.1, .httpAttempt attempt :: .sleep (2 ^ attempt) :: r.2)
        else (none, [.httpAttempt attempt])
  else (none, [])
termination_by maxRetries - attempt
decreasing_by all_goals omega

/-- Effective user agent (fetcher.py line 96):
`req.headers.get('User-Agent', '*') if req.headers else '*'`. -/
def userAgentOf (req : Request) : String :=
  match req.headers with
  | some hs => (hs.lookup "User-Agent").getD "*"
  | none => "*"

/-- Embeds `HttpxFetcher.fetch` (fetcher.py lines 91-161): robots check first — a
disallowed URL returns `None` with no HTTP attempt and no backoff sleep —
then the retry loop. Returns the result, the network events, and the updated
fetcher (robots cache). -/
def fetch (f : HttpxFetcher) (robots : String → RobotsTxtResult)
    (http : Nat → HttpResult) (req : Request) :
    Option Response × List FetchEvent × HttpxFetcher :=
  match canFetch f robots req.url (userAgentOf req) with
  | (false, f') => (none, [], f')
  | (true, f') =>
      let r := fetchLoop http f.maxRetries req 0
      (r.1, r.2, f')

/-! ## RSS source adapter (crawlers/core/spiders/rss_spider.py) -/

/-- A feedparser entry, restricted to the fields the spider reads.
`link = none` models a missing or empty `entry.get('link', '')`; `content`
holds the `value`s of the entry's content blocks; the remaining optional
fields model `hasattr`-guarded truthy access. -/
structure FeedEntry where
  link : Option Url := none
  title : String := "No title"
  content : List String := []
  summary : Option String := none
  description : Option String := none
  published : Option String := none
  updated : Option String := none
  author : Option String := none
  authorDetailName : Option String := none
deriving DecidableEq, Repr

/-- Embeds `RSSSpider` configuration (rss_spider.py lines 20-40). -/
structure RSSSpider where
  sourceName : String
  feedUrl : Url
  maxItems : Option Nat := none
  fetchFullContent : Bool := false
deriving DecidableEq, Repr

/-- The `Parser` helpers the spider calls (parser.py): `clean_text` wraps the
selectolax HTML stripping and `parse_date` wraps dateutil — both external
libraries, taken as oracles. -/
structure ParserOracle where
  cleanText : String → String
  parseDate : String → Option Nat

/-- The parsel/selectolax selector extraction used by `parse_full_content`
(parser.py `extract_text` / `extract_all_text`), taken as oracles keyed by the
CSS selector string. -/
structure PageOracle where
  extractText : Response → String → Option String
  extractAllText : Response → String → List String

/-- Embeds `RSSSpider._extract_content` (rss_spider.py lines 135-151): first content
block value, then summary, then description, else the empty string. -/
def extractContent (e : FeedEntry) : String :=
  match e.content with
  | v :: _ => v
  | [] =>
    match e.summary with
    | some s => s
    | none =>
      match e.description with
      | some d => d
      | none => ""

/-- The entry body after the conditional cleaning of rss_spider.py lines 78-80:
`body = self._extract_content(entry); if body: body = clean_text(body)`. -/
def entryCleanBody (po : ParserOracle) (e : FeedEntry) : String :=
  let body := extractContent e
  if body ≠ "" then po.cleanText body else body

/-- One iteration of the entry loop of `RSSSpider.parse`
(rss_spider.py lines 72-122): build the item, and, when full-content fetching
is enabled, the entry has a URL and the cleaned body is shorter than 500
characters, a follow-up request tagged `fetch_full` carrying the original
item's URL. -/
def parseEntry (sp : RSSSpider) (po : ParserOracle) (e : FeedEntry) :
    Item × List Request :=
  let url := match e.link with
             | some u => u.render
             | none => ""
  let body := entryCleanBody po e
  let publishedAt := match e.published with
                     | some p => po.parseDate p
                     | none =>
                       match e.updated with
                       | some up => po.parseDate up
                       | none => none
  let author := match e.author with
                | some a => some a
                | none => e.authorDetailName
  let item : Item :=
    { url := url, title := e.title, body := body, source := sp.sourceName,
      author := author, publishedAt := publishedAt }
  let followUps := match e.link with
    | some l =>
        if sp.fetchFullContent ∧ body.length < 500 then
          [{ url := l, method := "GET",
             metadata := { source := some sp.sourceName, fetchFull := true,
                           originalItemUrl := some url } }]
        else []
    | none => []
  (item, followUps)

/-- The entry loop of `RSSSpider.parse`, accumulating items and follow-ups in
emission order. The per-entry `try/except` (caught and skipped) is not
modeled: entry processing here is total. -/
def rssParseEntries (sp : RSSSpider) (po : ParserOracle) :
    List FeedEntry → List Item × List Request
  | [] => ([], [])
  | e :: rest =>
      let r := parseEntry sp po e
      let rr := rssParseEntries sp po rest
      (r.1 :: rr.1, r.2 ++ rr.2)

/-- The `max_items` cap (rss_spider.py line 70):
`feed.entries[:self.max_items] if self.max_items else feed.entries` —
Python truthiness leaves a cap of 0 meaning "no cap". -/
def rssCap (sp : RSSSpider) (entries : List FeedEntry) : List FeedEntry :=
  match sp.maxItems with
  | some n => if n ≠ 0 then entries.take n else entries
  | none => entries

/-- Feed-level branch of `RSSSpider.parse` (rss_spider.py lines 63-133). -/
def rssParseFeed (sp : RSSSpider) (po : ParserOracle)
    (entries : List FeedEntry) : List Item × List Request :=
  rssParseEntries sp po (rssCap sp entries)

/-- Embeds `RSSSpider.parse_full_content` (rss_spider.py lines 153-223): the selector
cascades for title, article body, author and date; exactly one item and no
follow-up requests on success; a caught parse error (`parseErr`) yields
`([], [])`. -/
def rssParseFullContent (sp : RSSSpider) (po : ParserOracle) (pg : PageOracle)
    (parseErr : Response → Bool) (resp : Response) : List Item × List Request :=
  if parseErr resp then ([], [])
  else
    let title :=
      (((pg.extractText resp "h1").orElse
          (fun _ => pg.extractText resp "title")).orElse
        (fun _ => pg.extractText resp ".article-title")).getD "No title"
    let articleBody :=
      match pg.extractAllText resp "article" with
      | [] =>
        match pg.extractAllText resp ".article-content" with
        | [] =>
          match pg.extractAllText resp ".post-content" with
          | [] => pg.extractAllText resp "main"
          | xs => xs
        | xs => xs
      | xs => xs
    let body := if articleBody ≠ [] then String.intercalate " " articleBody
                else po.cleanText resp.body
    let author :=
      ((pg.extractText resp ".author").orElse
          (fun _ => pg.extractText resp "[rel=\x27author\x27]")).orElse
        (fun _ => pg.extractText resp ".byline")
    let dateStr :=
      ((pg.extractText resp "time[datetime]").orElse
          (fun _ => pg.extractText resp ".published-date")).orElse
        (fun _ => pg.extractText resp "[itemprop=\x27datePublished\x27]")
    let publishedAt := match dateStr with
                       | some d => po.parseDate d
                       | none => none
    let item : Item :=
      { url := resp.url.render, title := title, body := body,
        source := sp.sourceName, author := author, publishedAt := publishedAt }
    ([item], [])

/-- Embeds `RSSSpider.parse` (rss_spider.py lines 50-133): a response whose
originating request is not marked `is_feed` is routed to
`parse_full_content`; a feed response is parsed into entries by feedparser
(`feedOf`, an oracle for the external library) and then the entry loop runs. -/
def rssParse (sp : RSSSpider) (po : ParserOracle) (pg : PageOracle)
    (feedOf : Response → List FeedEntry) (parseErr : Response → Bool)
    (resp : Response) : List Item × List Request :=
  if !resp.request.metadata.isFeed then
    rssParseFullContent sp po pg parseErr resp
  else
    rssParseFeed sp po (feedOf resp)

/-- The single seed request of `RSSSpider.seeds`: the feed URL, tagged
`is_feed`. -/
def rssSeedReq (sp : RSSSpider) : Request :=
  { url := sp.feedUrl, method := "GET",
    metadata := { source := some sp.sourceName, isFeed := true } }

/-- Embeds `RSSSpider.seeds` (rss_spider.py lines 42-48): one feed-level request. -/
def rssSeeds (sp : RSSSpider) : List Request := [rssSeedReq sp]

/-- The number of (capped) feed entries the seed response parses into — the
bound on follow-up requests of one RSS run (0 when the seed fetch fails). -/
def rssFeedSize (sp : RSSSpider) (feedOf : Response → List FeedEntry)
    (doFetch : Request → Option Response) : Nat :=
  match doFetch (rssSeedReq sp) with
  | none => 0
  | some resp => (rssCap sp (feedOf resp)).length

/-! ## Engine (crawlers/core/engine.py `CrawlerEngine`) -/

/-- The spider capabilities the engine consumes (base_spider.py `ISpider`);
`parseFullContent = none` models a spider without the
`parse_full_content` attribute (the engine's `hasattr` check). -/
structure Spider where
  seeds : List Request
  parse : Response → List Item × List Request
  parseFullContent : Option (Response → List Item × List Request)

/-- The `RSSSpider` packaged as an engine spider. -/
def rssSpiderOf (sp : RSSSpider) (po : ParserOracle) (pg : PageOracle)
    (feedOf : Response → List FeedEntry) (parseErr : Response → Bool) : Spider :=
  { seeds := rssSeeds sp,
    parse := rssParse sp po pg feedOf parseErr,
    parseFullContent := some (rssParseFullContent sp po pg parseErr) }

/-- Embeds `CrawlerEngine` state: the only field `crawl_spider` mutates is
`anti_bot` (engine.py line 30). -/
structure CrawlerEngine where
  antiBot : Option AntiBotMiddleware
deriving DecidableEq, Repr

/-- The throttling keys of a site config (`config.get('qps')`,
`config.get('delay')`). -/
structure CrawlConfig where
  qps : Option ℚ := none
  delay : Option ℚ := none
deriving DecidableEq, Repr

/-- Python truthiness of `config.get(key)`: absent or 0 is falsy. -/
def truthy : Option ℚ → Bool
  | none => false
  | some x => x != 0

/-- Embeds `CrawlerEngine.set_anti_bot` (engine.py lines 32-34). -/
def setAntiBot (eng : CrawlerEngine) (qps delay : ℚ) : CrawlerEngine :=
  { eng with antiBot := some { qps := some qps, delay := delay, jitter := true } }

/-- What the engine did with one dequeued request: the request, the middleware
that throttled it (`if self.anti_bot: before_request`, engine.py lines 65-66),
and the items and follow-up requests its parse produced (both empty on a
failed fetch). -/
structure TraceEntry where
  request : Request
  throttledBy : Option AntiBotMiddleware
  items : List Item
  followUps : List Request
deriving DecidableEq, Repr

/-- Parse routing of the engine loop (engine.py lines 78-87): a request tagged
`fetch_full` goes to the spider's `parse_full_content` when that capability
exists (`hasattr`), everything else to `parse`. -/
def engineParse (spider : Spider) (req : Request) (resp : Response) :
    List Item × List Request :=
  if req.metadata.fetchFull then
    match spider.parseFullContent with
    | some pfc => pfc resp
    | none => spider.parse resp
  else spider.parse resp

/-- The frontier loop of `crawl_spider` (engine.py lines 61-94): pop the head
request, throttle, fetch (`doFetch` bundles the render/fetch dispatch as an
oracle), on failure log and continue, otherwise route to
`parse_full_content` when the request is tagged `fetch_full` and the spider
has that capability, accumulate items, append follow-ups to the tail.
`fuel` bounds the number of iterations (the source loop has no such bound
and may diverge for an adapter with unbounded follow-up emission); the
result is `none` when `fuel` iterations did not drain the frontier, and
otherwise the accumulated items together with the per-iteration trace. -/
def crawlLoop (doFetch : Request → Option Response) (spider : Spider)
    (antiBot : Option AntiBotMiddleware) :
    Nat → List Request → List Item → Option (List Item × List TraceEntry)
  | _, [], items => some (items, [])
  | 0, _ :: _, _ => none
  | fuel + 1, req :: rest, items =>
      match doFetch req with
      | none =>
          match crawlLoop doFetch spider antiBot fuel rest items with
          | none => none
          | some (res, tr) => some (res, ⟨req, antiBot, [], []⟩ :: tr)
      | some resp =>
          let pr := engineParse spider req resp
          match crawlLoop doFetch spider antiBot fuel (rest ++ pr.2) (items ++ pr.1) with
          | none => none
          | some (res, tr) => some (res, ⟨req, antiBot, pr.1, pr.2⟩ :: tr)

/-- Embeds `CrawlerEngine.crawl_spider` (engine.py lines 36-102): configure the
anti-bot middleware when the config supplies a truthy `qps` or `delay`
(defaults 1.0), drain the frontier starting from the spider's seeds, and —
only when items accumulated — hand all of them to the pipeline in one
`process_items` call. Returns the success count, the engine state after the
call, the trace, and the list of pipeline invocations. -/
def crawlSpider (eng : CrawlerEngine) (cfg : CrawlConfig)
    (doFetch : Request → Option Response) (spider : Spider)
    (pipeline : List Item → Nat) (fuel : Nat) :
    Option (Nat × CrawlerEngine × List TraceEntry × List (List Item)) :=
  let eng' := if truthy cfg.qps || truthy cfg.delay then
                setAntiBot eng (cfg.qps.getD 1) (cfg.delay.getD 1)
              else eng
  match crawlLoop doFetch spider eng'.antiBot fuel spider.seeds [] with
  | none => none
  | some (allItems, tr) =>
      if allItems.isEmpty then some (0, eng', tr, [])
      else some (pipeline allItems, eng', tr, [allItems])

/-! ## Pipeline lemmas -/

lemma processItem_of_dup (f : Faults) (item : Item) (s : StoreState)
    (h : s.db.any (fun c => c.url == item.url) = true) :
    processItem f item s = (false, s) := by
  simp [processItem, h]

lemma processItem_db_of_fail (f : Faults) (item : Item) (s : StoreState)
    (h : (processItem f item s).1 = false) :
    (processItem f item s).2.db = s.db := by
  unfold processItem at *
  split_ifs at *
  all_goals simp_all

lemma processItem_db_of_success (f : Faults) (item : Item) (s : StoreState)
    (h : (processItem f item s).1 = true) :
    ∃ c : Content, c.url = item.url ∧ (processItem f item s).2.db = s.db ++ [c] := by
  unfold processItem at *
  split_ifs at * <;> simp_all

lemma countUrl_processItem_le (f : Faults) (item : Item) (s : StoreState) :
    countUrl (processItem f item s).2 item.url ≤ countUrl s item.url + 1 := by
  rcases h : (processItem f item s).1 with _ | _
  · rw [countUrl, processItem_db_of_fail f item s h]
    exact Nat.le_succ _
  · obtain ⟨c, hc, hdb⟩ := processItem_db_of_success f item s h
    simp [countUrl, hdb, List.filter_append, hc]

lemma countUrl_eq_zero_iff (s : StoreState) (u : String) :
    countUrl s u = 0 ↔ s.db.any (fun c => c.url == u) = false := by
  simp [countUrl, List.length_eq_zero, List.filter_eq_nil_iff, List.any_eq_false]

/-- Claim C1: if a metadata record with the same URL already exists,
`process_item` performs no blob upload and no metadata insert, returns a skip
(`False`), and the store is unchanged; hence processing the same Item twice —
under any storage fault behaviors — leaves at most one record for its URL. -/
theorem processItem_idempotence (f f₁ f₂ : Faults) (item : Item) (s s₀ : StoreState)
    (hdup : ∃ c ∈ s.db, c.url = item.url) (hnew : countUrl s₀ item.url = 0) :
    processItem f item s = (false, s) ∧
    countUrl (processItem f₂ item (processItem f₁ item s₀).2).2 item.url ≤ 1 := by
  constructor
  · apply processItem_of_dup
    rw [List.any_eq_true]
    obtain ⟨c, hc, hurl⟩ := hdup
    exact ⟨c, hc, by simp [hurl]⟩
  · rcases h1 : (processItem f₁ item s₀).1 with _ | _
    · have hdb1 := processItem_db_of_fail f₁ item s₀ h1
      have hc1 : countUrl (processItem f₁ item s₀).2 item.url = 0 := by
        rw [countUrl, hdb1]; exact hnew
      calc countUrl (processItem f₂ item (processItem f₁ item s₀).2).2 item.url
          ≤ countUrl (processItem f₁ item s₀).2 item.url + 1 :=
            countUrl_processItem_le f₂ item _
        _ = 1 := by rw [hc1]
    · obtain ⟨c, hc, hdb1⟩ := processItem_db_of_success f₁ item s₀ h1
      have hany : (processItem f₁ item s₀).2.db.any (fun c => c.url == item.url) = true := by
        rw [hdb1, List.any_eq_true]
        exact ⟨c, by simp, by simp [hc]⟩
      rw [processItem_of_dup f₂ item _ hany]
      have h1c : countUrl (processItem f₁ item s₀).2 item.url = 1 := by
        rw [countUrl, hdb1]
        rw [countUrl_eq_zero_iff] at hnew
        have hfil : s₀.db.filter (fun c => c.url == item.url) = [] := by
          rw [List.filter_eq_nil_iff]
          intro a ha
          rw [List.any_eq_false] at hnew
          exact hnew a ha
        simp [List.filter_append, hfil, hc]
      simpa using h1c.le

/-- Witness for C1 at a concrete store holding a record for the item's URL. -/
theorem processItem_idempotence_witness :
    processItem ⟨fun _ => false, fun _ => false⟩
        ⟨"http://a/x", "t", "b", "src", none, none, "en"⟩
        ⟨[⟨"src", "http://a/x", "t0", none, none, "p", "u0", "en"⟩], [], 1⟩
      = (false, ⟨[⟨"src", "http://a/x", "t0", none, none, "p", "u0", "en"⟩], [], 1⟩) ∧
    countUrl (processItem ⟨fun _ => true, fun _ => false⟩
        ⟨"http://a/x", "t", "b", "src", none, none, "en"⟩
        (processItem ⟨fun _ => false, fun _ => false⟩
          ⟨"http://a/x", "t", "b", "src", none, none, "en"⟩ ⟨[], [], 0⟩).2).2
      "http://a/x" ≤ 1 :=
  processItem_idempotence ⟨fun _ => false, fun _ => false⟩
    ⟨fun _ => false, fun _ => false⟩ ⟨fun _ => true, fun _ => false⟩
    ⟨"http://a/x", "t", "b", "src", none, none, "en"⟩
    ⟨[⟨"src", "http://a/x", "t0", none, none, "p", "u0", "en"⟩], [], 1⟩
    ⟨[], [], 0⟩
    ⟨⟨"src", "http://a/x", "t0", none, none, "p", "u0", "en"⟩, by simp, rfl⟩
    (by simp [countUrl])

lemma processItem_insert_eq (f : Faults) (item : Item) (s : StoreState)
    (hnodup : s.db.any (fun c => c.url == item.url) = false)
    (hu : f.uploadRaises item = false) (hi : f.insertRaises item = false) :
    processItem f item s =
      (true,
       ⟨s.db ++ [⟨item.source, item.url, item.title, item.author, item.publishedAt,
                  objectNameFor item.source (uuidStr s.nextUuid), uuidStr s.nextUuid,
                  item.lang⟩],
        s.blobs ++ [⟨objectNameFor item.source (uuidStr s.nextUuid), item.body,
                     "text/plain"⟩],
        s.nextUuid + 1⟩) := by
  simp [processItem, hnodup, hu, hi]

lemma processItem_upload_fail_eq (f : Faults) (item : Item) (s : StoreState)
    (hnodup : s.db.any (fun c => c.url == item.url) = false)
    (hu : f.uploadRaises item = true) :
    processItem f item s = (false, { s with nextUuid := s.nextUuid + 1 }) := by
  simp [processItem, hnodup, hu]

/-- Claim C4: an item whose blob upload or metadata insert raises is rolled
back (the metadata store unchanged; for an upload failure the blob store too)
and counts as a failure for that item only; the remaining items are still
processed, so 5 items where exactly item 3's blob upload throws yield
`success_count = 4` and records for exactly the other four URLs, in order. -/
theorem processItems_failure_isolation (f : Faults) (i₁ i₂ i₃ i₄ i₅ : Item)
    (s : StoreState) (hdb : s.db = [])
    (hd : [i₁.url, i₂.url, i₃.url, i₄.url, i₅.url].Pairwise (· ≠ ·))
    (h₃ : f.uploadRaises i₃ = true)
    (hok : ∀ i ∈ [i₁, i₂, i₄, i₅], f.uploadRaises i = false ∧ f.insertRaises i = false) :
    (processItems f [i₁, i₂, i₃, i₄, i₅] s).1 = 4 ∧
    ((processItems f [i₁, i₂, i₃, i₄, i₅] s).2.db.map Content.url)
      = [i₁.url, i₂.url, i₄.url, i₅.url] ∧
    (∀ (j : Item) (s' : StoreState), f.uploadRaises j = true →
       (processItem f j s').1 = false ∧ (processItem f j s').2.db = s'.db ∧
       (processItem f j s').2.blobs = s'.blobs) ∧
    (∀ (j : Item) (s' : StoreState), f.insertRaises j = true →
       (processItem f j s').1 = false ∧ (processItem f j s').2.db = s'.db) := by
  obtain ⟨db, blobs, n⟩ := s
  simp only at hdb
  subst hdb
  obtain ⟨h1, hd⟩ := List.pairwise_cons.mp hd
  obtain ⟨h2, hd⟩ := List.pairwise_cons.mp hd
  obtain ⟨h3r, hd⟩ := List.pairwise_cons.mp hd
  obtain ⟨h4, -⟩ := List.pairwise_cons.mp hd
  have b12 : (i₁.url == i₂.url) = false := beq_eq_false_iff_ne.mpr (h1 _ (by simp))
  have b13 : (i₁.url == i₃.url) = false := beq_eq_false_iff_ne.mpr (h1 _ (by simp))
  have b14 : (i₁.url == i₄.url) = false := beq_eq_false_iff_ne.mpr (h1 _ (by simp))
  have b15 : (i₁.url == i₅.url) = false := beq_eq_false_iff_ne.mpr (h1 _ (by simp))
  have b23 : (i₂.url == i₃.url) = false := beq_eq_false_iff_ne.mpr (h2 _ (by simp))
  have b24 : (i₂.url == i₄.url) = false := beq_eq_false_iff_ne.mpr (h2 _ (by simp))
  have b25 : (i₂.url == i₅.url) = false := beq_eq_false_iff_ne.mpr (h2 _ (by simp))
  have b45 : (i₄.url == i₅.url) = false := beq_eq_false_iff_ne.mpr (h4 _ (by simp))
  have u1 := (hok i₁ (by simp)).1
  have v1 := (hok i₁ (by simp)).2
  have u2 := (hok i₂ (by simp)).1
  have v2 := (hok i₂ (by simp)).2
  have u4 := (hok i₄ (by simp)).1
  have v4 := (hok i₄ (by simp)).2
  have u5 := (hok i₅ (by simp)).1
  have v5 := (hok i₅ (by simp)).2
  refine ⟨?_, ?_, ?_, ?_⟩
  · simp [processItems, processItem, b12, b13, b23, b14, b24, b15, b25, b45,
          u1, v1, u2, v2, h₃, u4, v4, u5, v5]
  · simp [processItems, processItem, b12, b13, b23, b14, b24, b15, b25, b45,
          u1, v1, u2, v2, h₃, u4, v4, u5, v5]
  · intro j s' hj
    rcases hdup : s'.db.any (fun c => c.url == j.url) with _ | _
    · simp [processItem, hdup, hj]
    · simp [processItem, hdup]
  · intro j s' hj
    rcases hdup : s'.db.any (fun c => c.url == j.url) with _ | _
    · rcases hup : f.uploadRaises j with _ | _
      · simp [processItem, hdup, hup, hj]
      · simp [processItem, hdup, hup]
    · simp [processItem, hdup]

/-- Witness for C4: five concrete items, the third one's blob upload raising. -/
theorem processItems_failure_isolation_witness :
    (processItems ⟨fun i => i.url == "http://s/3", fun _ => false⟩
       [⟨"http://s/1", "t1", "b1", "src", none, none, "en"⟩,
        ⟨"http://s/2", "t2", "b2", "src", none, none, "en"⟩,
        ⟨"http://s/3", "t3", "b3", "src", none, none, "en"⟩,
        ⟨"http://s/4", "t4", "b4", "src", none, none, "en"⟩,
        ⟨"http://s/5", "t5", "b5", "src", none, none, "en"⟩] ⟨[], [], 0⟩).1 = 4 ∧
    ((processItems ⟨fun i => i.url == "http://s/3", fun _ => false⟩
       [⟨"http://s/1", "t1", "b1", "src", none, none, "en"⟩,
        ⟨"http://s/2", "t2", "b2", "src", none, none, "en"⟩,
        ⟨"http://s/3", "t3", "b3", "src", none, none, "en"⟩,
        ⟨"http://s/4", "t4", "b4", "src", none, none, "en"⟩,
        ⟨"http://s/5", "t5", "b5", "src", none, none, "en"⟩] ⟨[], [], 0⟩).2.db.map
          Content.url)
      = ["http://s/1", "http://s/2", "http://s/4", "http://s/5"] := by
  have h := processItems_failure_isolation
    ⟨fun i => i.url == "http://s/3", fun _ => false⟩
    ⟨"http://s/1", "t1", "b1", "src", none, none, "en"⟩
    ⟨"http://s/2", "t2", "b2", "src", none, none, "en"⟩
    ⟨"http://s/3", "t3", "b3", "src", none, none, "en"⟩
    ⟨"http://s/4", "t4", "b4", "src", none, none, "en"⟩
    ⟨"http://s/5", "t5", "b5", "src", none, none, "en"⟩
    ⟨[], [], 0⟩ rfl (by decide) (by decide) (by decide)
  exact ⟨h.1, h.2.1⟩

/-! ## Anti-bot theorems (claim C7) -/

/-- Counterexample to claim C7 as stated: with `delay = 0` and jitter enabled,
`before_request` performs no sleep at all — the `if self.delay > 0` guard also
skips the jitter sleep the claim requires on every call — while the spec-level
description (`beforeRequestSpec`) pays a jitter sleep of the sampled amount. -/
theorem beforeRequest_zero_delay_counterexample :
    beforeRequest ⟨some 1, 0, true⟩ (1/4) = [WaitAction.acquireToken 1] ∧
    beforeRequestSpec ⟨some 1, 0, true⟩ (1/4)
      = [WaitAction.acquireToken 1, WaitAction.sleep (1/4)] ∧
    beforeRequest ⟨some 1, 0, true⟩ (1/4) ≠ beforeRequestSpec ⟨some 1, 0, true⟩ (1/4) := by
  refine ⟨?_, ?_, ?_⟩ <;>
    norm_num [beforeRequest, beforeRequestSpec, AntiBotMiddleware.limiter]

/-- Claim C7 (amended): on every call the rate-limiter token — when a limiter
is configured — is acquired first; then, only when `delay > 0`, exactly one
sleep of `delay` plus (when jitter is enabled) the jitter sample in
`[0, 0.5)` is paid, so the sleep lies in `[delay, delay + 0.5)`; with
`delay = 0` no sleep at all occurs, jitter included. -/
theorem beforeRequest_composition (m : AntiBotMiddleware) (j : ℚ)
    (hj0 : 0 ≤ j) (hj : j < 1/2) :
    (∀ q, m.limiter = some q →
        (beforeRequest m j).head? = some (WaitAction.acquireToken q)) ∧
    (0 < m.delay →
        (beforeRequest m j).getLast?
            = some (WaitAction.sleep (m.delay + (if m.jitter then j else 0))) ∧
          m.delay ≤ m.delay + (if m.jitter then j else 0) ∧
          m.delay + (if m.jitter then j else 0) < m.delay + 1/2) ∧
    (m.delay ≤ 0 → ∀ t, WaitAction.sleep t ∉ beforeRequest m j) := by
  refine ⟨?_, ?_, ?_⟩
  · intro q hq
    rcases hpos : decide (0 < m.delay) with _ | _
    · simp at hpos
      simp [beforeRequest, hq, if_neg (by exact not_lt.mpr hpos)]
    · simp at hpos
      simp [beforeRequest, hq, if_pos hpos]
  · intro hpos
    refine ⟨?_, ?_, ?_⟩
    · rcases hlim : m.limiter with _ | q <;>
        simp [beforeRequest, hlim, if_pos hpos]
    · rcases hjit : m.jitter with _ | _ <;> simp [hjit] <;> linarith
    · rcases hjit : m.jitter with _ | _ <;> simp [hjit] <;> linarith
  · intro hnp t
    have : ¬ 0 < m.delay := not_lt.mpr hnp
    rcases hlim : m.limiter with _ | q <;>
      simp [beforeRequest, hlim, if_neg this]

/-- Witness for the amended C7 at `qps = 2`, `delay = 1`, jitter sample 1/4. -/
theorem beforeRequest_composition_witness :
    (beforeRequest ⟨some 2, 1, true⟩ (1/4)).head? = some (WaitAction.acquireToken 2) ∧
    (beforeRequest ⟨some 2, 1, true⟩ (1/4)).getLast?
      = some (WaitAction.sleep (1 + (if true then (1/4 : ℚ) else 0))) := by
  have h := beforeRequest_composition ⟨some 2, 1, true⟩ (1/4) (by norm_num) (by norm_num)
  exact ⟨h.1 2 (by norm_num [AntiBotMiddleware.limiter]), (h.2.1 (by norm_num)).1⟩

/-! ## Fetcher theorems (claims C3, C8, C2) -/

lemma fetchLoop_retryable (http : Nat → HttpResult) (req : Request) (R : Nat)
    (h : ∀ n, http n = HttpResult.statusError 429 ∨ http n = HttpResult.statusError 500) :
    ∀ (m a : Nat), R - a = m →
      fetchLoop http R req a
        = (none, (List.range' a m).flatMap
            (fun i => [FetchEvent.httpAttempt i, FetchEvent.sleep (2 ^ i)])) := by
  intro m
  induction m with
  | zero =>
      intro a ha
      rw [fetchLoop]
      have hge : ¬ a < R := by omega
      simp [hge]
  | succ k ih =>
      intro a ha
      have hlt : a < R := by omega
      have ihh := ih (a + 1) (by omega)
      rw [fetchLoop, dif_pos hlt]
      rcases h a with h' | h' <;>
        · rw [h']
          simp only [ihh]
          simp [List.range'_succ]

/-- Claim C3: when every attempt answers HTTP 429 or 500, `fetch` issues
exactly `max_retries` attempts, sleeping `2^attempt` seconds after each failed
attempt (including the last), then returns `None`; no 429/500 ever produces an
immediate `None` before the attempt budget is exhausted. For `max_retries = 3`
the trace is attempts 0, 1, 2 with sleeps of 1s, 2s, 4s. -/
theorem fetch_retry_bound (f : HttpxFetcher) (robots : String → RobotsTxtResult)
    (http : Nat → HttpResult) (req : Request)
    (hretry : ∀ n, http n = HttpResult.statusError 429 ∨
                   http n = HttpResult.statusError 500)
    (hallow : (canFetch f robots req.url (userAgentOf req)).1 = true) :
    (fetch f robots http req).1 = none ∧
    (fetch f robots http req).2.1
      = (List.range f.maxRetries).flatMap
          (fun i => [FetchEvent.httpAttempt i, FetchEvent.sleep (2 ^ i)]) := by
  unfold fetch
  rcases hcf : canFetch f robots req.url (userAgentOf req) with ⟨b, f'⟩
  rw [hcf] at hallow
  simp only at hallow
  subst hallow
  have hloop := fetchLoop_retryable http req f.maxRetries hretry f.maxRetries 0 (by omega)
  simp [hloop, List.range_eq_range']

/-- Witness for C3: `max_retries = 3`, a server answering 500 on every attempt. -/
theorem fetch_retry_bound_witness :
    (fetch ⟨30, 3, [], false, []⟩ (fun _ => RobotsTxtResult.networkError)
        (fun _ => HttpResult.statusError 500) ⟨⟨"http", "h", "/"⟩, "GET", none, false, {}⟩).1
      = none ∧
    (fetch ⟨30, 3, [], false, []⟩ (fun _ => RobotsTxtResult.networkError)
        (fun _ => HttpResult.statusError 500) ⟨⟨"http", "h", "/"⟩, "GET", none, false, {}⟩).2.1
      = [FetchEvent.httpAttempt 0, FetchEvent.sleep 1,
         FetchEvent.httpAttempt 1, FetchEvent.sleep 2,
         FetchEvent.httpAttempt 2, FetchEvent.sleep 4] := by
  have h := fetch_retry_bound ⟨30, 3, [], false, []⟩ (fun _ => RobotsTxtResult.networkError)
    (fun _ => HttpResult.statusError 500) ⟨⟨"http", "h", "/"⟩, "GET", none, false, {}⟩
    (fun _ => Or.inr rfl) rfl
  refine ⟨h.1, ?_⟩
  rw [h.2]
  decide

/-- Claim C8: a request whose URL is disallowed by the loaded robots rules of
its (cached) domain makes `fetch` return `None` with no HTTP attempt and no
backoff sleep — the request-building and retry loop is never entered — and the
fetcher state is unchanged. -/
theorem fetch_robots_enforcement (f : HttpxFetcher) (robots : String → RobotsTxtResult)
    (http : Nat → HttpResult) (req : Request) (rp : RobotFileParser)
    (hrr : f.respectRobots = true)
    (hcache : f.robotParsers.lookup req.url.domain = some rp)
    (hdis : rp.canFetch (userAgentOf req) req.url = false) :
    fetch f robots http req = (none, [], f) := by
  unfold fetch canFetch getRobotsParser
  simp [hrr, hcache, hdis]

/-- Witness for C8: robots rules disallowing `/private/`, a URL under it. -/
theorem fetch_robots_enforcement_witness :
    fetch ⟨30, 3, [], true,
        [("http://ex.com", ⟨true, false, false,
            [⟨["*"], [⟨"/private/", false⟩]⟩], none⟩)]⟩
      (fun _ => RobotsTxtResult.networkError) (fun _ => HttpResult.success 200 "")
      ⟨⟨"http", "ex.com", "/private/secret"⟩, "GET", none, false, {}⟩
    = (none, [],
       ⟨30, 3, [], true,
        [("http://ex.com", ⟨true, false, false,
            [⟨["*"], [⟨"/private/", false⟩]⟩], none⟩)]⟩) :=
  fetch_robots_enforcement _ _ _ _
    ⟨true, false, false, [⟨["*"], [⟨"/private/", false⟩]⟩], none⟩
    rfl (by decide) (by decide)

/-- Claim C2 evaluation (the code FAILS CLOSED, not open): when robots.txt for
a domain cannot be loaded (`read()` raises), `_get_robots_parser` caches a
fresh never-read parser for the domain — so no further load attempt is made —
but `can_fetch` on that cached parser returns FALSE for every URL of the
domain (an unread `RobotFileParser` denies everything), so every fetch to the
domain is blocked instead of proceeding unrestricted. -/
theorem robots_load_failure_fails_closed :
    (canFetch ⟨30, 3, [], true, []⟩ (fun _ => RobotsTxtResult.networkError)
        ⟨"http", "down.example", "/page"⟩ "*").1 = false ∧
    (canFetch ⟨30, 3, [], true, []⟩ (fun _ => RobotsTxtResult.networkError)
        ⟨"http", "down.example", "/page"⟩ "*").2.robotParsers
      = [("http://down.example", RobotFileParser.fresh)] ∧
    (∀ oracle2 : String → RobotsTxtResult,
      canFetch (canFetch ⟨30, 3, [], true, []⟩ (fun _ => RobotsTxtResult.networkError)
            ⟨"http", "down.example", "/page"⟩ "*").2 oracle2
          ⟨"http", "down.example", "/other"⟩ "*"
        = (false,
           (canFetch ⟨30, 3, [], true, []⟩ (fun _ => RobotsTxtResult.networkError)
              ⟨"http", "down.example", "/page"⟩ "*").2)) ∧
    (fetch (canFetch ⟨30, 3, [], true, []⟩ (fun _ => RobotsTxtResult.networkError)
          ⟨"http", "down.example", "/page"⟩ "*").2
        (fun _ => RobotsTxtResult.networkError) (fun _ => HttpResult.success 200 "")
        ⟨⟨"http", "down.example", "/other"⟩, "GET", none, false, {}⟩).1 = none := by
  refine ⟨by decide, by decide, ?_, by decide⟩
  intro oracle2
  rfl

/-! ## Engine lemmas -/

lemma crawlLoop_trace_take (doFetch : Request → Option Response) (spider : Spider)
    (ab : Option AntiBotMiddleware) :
    ∀ (fuel : Nat) (q : List Request) (items res : List Item) (tr : List TraceEntry),
      crawlLoop doFetch spider ab fuel q items = some (res, tr) →
      (tr.map TraceEntry.request).take q.length = q := by
  intro fuel
  induction fuel with
  | zero =>
      intro q items res tr h
      cases q with
      | nil =>
          simp only [crawlLoop, Option.some.injEq, Prod.mk.injEq] at h
          simp [← h.2]
      | cons r rest => simp [crawlLoop] at h
  | succ fuel ih =>
      intro q items res tr h
      cases q with
      | nil =>
          simp only [crawlLoop, Option.some.injEq, Prod.mk.injEq] at h
          simp [← h.2]
      | cons r rest =>
          simp only [crawlLoop] at h
          rcases hd : doFetch r with _ | resp <;> simp only [hd] at h
          · rcases hrec : crawlLoop doFetch spider ab fuel rest items
              with _ | ⟨res', tr'⟩ <;> simp only [hrec, Option.some.injEq, Prod.mk.injEq] at h
            · cases h
            · obtain ⟨hres, htr⟩ := h
              subst hres
              subst htr
              have hih := ih rest items res' tr' hrec
              simpa using hih
          · rcases hrec : crawlLoop doFetch spider ab fuel
                (rest ++ (engineParse spider r resp).2)
                (items ++ (engineParse spider r resp).1)
              with _ | ⟨res', tr'⟩ <;> simp only [hrec, Option.some.injEq, Prod.mk.injEq] at h
            · cases h
            · obtain ⟨hres, htr⟩ := h
              subst hres
              subst htr
              have hih := ih _ _ res' tr' hrec
              have h1 : (tr'.map TraceEntry.request).take rest.length = rest := by
                have h2 := congrArg (List.take rest.length) hih
                rwa [List.take_take, List.length_append,
                     min_eq_left (Nat.le_add_right _ _), List.take_left] at h2
              simpa using h1

lemma crawlLoop_followups (doFetch : Request → Option Response) (spider : Spider)
    (ab : Option AntiBotMiddleware) :
    ∀ (fuel : Nat) (q : List Request) (items res : List Item) (tr : List TraceEntry),
      crawlLoop doFetch spider ab fuel q items = some (res, tr) →
      ∀ (k : Nat) (e : TraceEntry), tr[k]? = some e →
        e.followUps.Sublist ((tr.drop (k + 1)).map TraceEntry.request) := by
  intro fuel
  induction fuel with
  | zero =>
      intro q items res tr h k e hk
      cases q with
      | nil =>
          simp only [crawlLoop, Option.some.injEq, Prod.mk.injEq] at h
          rw [← h.2] at hk
          simp at hk
      | cons r rest => simp [crawlLoop] at h
  | succ fuel ih =>
      intro q items res tr h k e hk
      cases q with
      | nil =>
          simp only [crawlLoop, Option.some.injEq, Prod.mk.injEq] at h
          rw [← h.2] at hk
          simp at hk
      | cons r rest =>
          simp only [crawlLoop] at h
          rcases hd : doFetch r with _ | resp <;> simp only [hd] at h
          · rcases hrec : crawlLoop doFetch spider ab fuel rest items
              with _ | ⟨res', tr'⟩ <;> simp only [hrec, Option.some.injEq, Prod.mk.injEq] at h
            · cases h
            · obtain ⟨hres, htr⟩ := h
              subst hres
              subst htr
              cases k with
              | zero =>
                  simp only [List.getElem?_cons_zero, Option.some.injEq] at hk
                  subst hk
                  simp
              | succ k =>
                  simp only [List.getElem?_cons_succ] at hk
                  simpa using ih rest items res' tr' hrec k e hk
          · rcases hrec : crawlLoop doFetch spider ab fuel
                (rest ++ (engineParse spider r resp).2)
                (items ++ (engineParse spider r resp).1)
              with _ | ⟨res', tr'⟩ <;> simp only [hrec, Option.some.injEq, Prod.mk.injEq] at h
            · cases h
            · obtain ⟨hres, htr⟩ := h
              subst hres
              subst htr
              cases k with
              | zero =>
                  simp only [List.getElem?_cons_zero, Option.some.injEq] at hk
                  subst hk
                  have hih := crawlLoop_trace_take doFetch spider ab fuel _ _ res' tr' hrec
                  have hsub : (rest ++ (engineParse spider r resp).2).Sublist
                      (tr'.map TraceEntry.request) := by
                    rw [← hih]
                    exact List.take_sublist _ _
                  simpa using
                    (List.sublist_append_right rest (engineParse spider r resp).2).trans hsub
              | succ k =>
                  simp only [List.getElem?_cons_succ] at hk
                  simpa using ih _ _ res' tr' hrec k e hk

lemma crawlLoop_items_join (doFetch : Request → Option Response) (spider : Spider)
    (ab : Option AntiBotMiddleware) :
    ∀ (fuel : Nat) (q : List Request) (items res : List Item) (tr : List TraceEntry),
      crawlLoop doFetch spider ab fuel q items = some (res, tr) →
      res = items ++ (tr.map TraceEntry.items).flatten := by
  intro fuel
  induction fuel with
  | zero =>
      intro q items res tr h
      cases q with
      | nil =>
          simp only [crawlLoop, Option.some.injEq, Prod.mk.injEq] at h
          simp [← h.1, ← h.2]
      | cons r rest => simp [crawlLoop] at h
  | succ fuel ih =>
      intro q items res tr h
      cases q with
      | nil =>
          simp only [crawlLoop, Option.some.injEq, Prod.mk.injEq] at h
          simp [← h.1, ← h.2]
      | cons r rest =>
          simp only [crawlLoop] at h
          rcases hd : doFetch r with _ | resp <;> simp only [hd] at h
          · rcases hrec : crawlLoop doFetch spider ab fuel rest items
              with _ | ⟨res', tr'⟩ <;> simp only [hrec, Option.some.injEq, Prod.mk.injEq] at h
            · cases h
            · obtain ⟨hres, htr⟩ := h
              subst hres
              subst htr
              simpa using ih rest items res' tr' hrec
          · rcases hrec : crawlLoop doFetch spider ab fuel
                (rest ++ (engineParse spider r resp).2)
                (items ++ (engineParse spider r resp).1)
              with _ | ⟨res', tr'⟩ <;> simp only [hrec, Option.some.injEq, Prod.mk.injEq] at h
            · cases h
            · obtain ⟨hres, htr⟩ := h
              subst hres
              subst htr
              have hih := ih _ _ res' tr' hrec
              simp [hih]

lemma crawlLoop_throttledBy (doFetch : Request → Option Response) (spider : Spider)
    (ab : Option AntiBotMiddleware) :
    ∀ (fuel : Nat) (q : List Request) (items res : List Item) (tr : List TraceEntry),
      crawlLoop doFetch spider ab fuel q items = some (res, tr) →
      ∀ e ∈ tr, e.throttledBy = ab := by
  intro fuel
  induction fuel with
  | zero =>
      intro q items res tr h e he
      cases q with
      | nil =>
          simp only [crawlLoop, Option.some.injEq, Prod.mk.injEq] at h
          rw [← h.2] at he
          simp at he
      | cons r rest => simp [crawlLoop] at h
  | succ fuel ih =>
      intro q items res tr h e he
      cases q with
      | nil =>
          simp only [crawlLoop, Option.some.injEq, Prod.mk.injEq] at h
          rw [← h.2] at he
          simp at he
      | cons r rest =>
          simp only [crawlLoop] at h
          rcases hd : doFetch r with _ | resp <;> simp only [hd] at h
          · rcases hrec : crawlLoop doFetch spider ab fuel rest items
              with _ | ⟨res', tr'⟩ <;> simp only [hrec, Option.some.injEq, Prod.mk.injEq] at h
            · cases h
            · obtain ⟨hres, htr⟩ := h
              subst hres
              subst htr
              rcases List.mem_cons.mp he with he | he
              · rw [he]
              · exact ih rest items res' tr' hrec e he
          · rcases hrec : crawlLoop doFetch spider ab fuel
                (rest ++ (engineParse spider r resp).2)
                (items ++ (engineParse spider r resp).1)
              with _ | ⟨res', tr'⟩ <;> simp only [hrec, Option.some.injEq, Prod.mk.injEq] at h
            · cases h
            · obtain ⟨hres, htr⟩ := h
              subst hres
              subst htr
              rcases List.mem_cons.mp he with he | he
              · rw [he]
              · exact ih _ _ res' tr' hrec e he

lemma crawlSpider_state (eng : CrawlerEngine) (cfg : CrawlConfig)
    (doFetch : Request → Option Response) (spider : Spider)
    (pipeline : List Item → Nat) (fuel : Nat)
    (res : Nat × CrawlerEngine × List TraceEntry × List (List Item))
    (h : crawlSpider eng cfg doFetch spider pipeline fuel = some res) :
    res.2.1 = (if truthy cfg.qps || truthy cfg.delay then
                 setAntiBot eng (cfg.qps.getD 1) (cfg.delay.getD 1)
               else eng) ∧
    (∀ e ∈ res.2.2.1, e.throttledBy = res.2.1.antiBot) := by
  simp only [crawlSpider] at h
  rcases hloop : crawlLoop doFetch spider
      (if truthy cfg.qps || truthy cfg.delay then
         setAntiBot eng (cfg.qps.getD 1) (cfg.delay.getD 1)
       else eng).antiBot fuel spider.seeds []
    with _ | ⟨allItems, tr₀⟩ <;> simp only [hloop] at h
  · cases h
  · by_cases hemp : allItems.isEmpty
    · rw [if_pos hemp] at h
      simp only [Option.some.injEq] at h
      subst h
      exact ⟨rfl, crawlLoop_throttledBy _ _ _ _ _ _ _ _ hloop⟩
    · rw [if_neg hemp] at h
      simp only [Option.some.injEq] at h
      subst h
      exact ⟨rfl, crawlLoop_throttledBy _ _ _ _ _ _ _ _ hloop⟩

/-! ## Engine theorems (claims C5, C10) -/

/-- Claim C5: within one run, requests are dequeued from the front of the
frontier in FIFO order (the initial frontier is processed as a prefix of the
dequeue trace, in order), follow-up requests are appended to the tail and
dequeued strictly after the request that produced them, in the order emitted,
and the pipeline runs only after the frontier drained — exactly one
`process_items` call carrying all accumulated items (and no call at all when
no items accumulated). -/
theorem crawlSpider_frontier_fifo (eng : CrawlerEngine) (cfg : CrawlConfig)
    (doFetch : Request → Option Response) (spider : Spider)
    (pipeline : List Item → Nat) (fuel cnt : Nat) (eng' : CrawlerEngine)
    (tr : List TraceEntry) (calls : List (List Item))
    (h : crawlSpider eng cfg doFetch spider pipeline fuel
          = some (cnt, eng', tr, calls)) :
    (tr.map TraceEntry.request).take spider.seeds.length = spider.seeds ∧
    (∀ (k : Nat) (e : TraceEntry), tr[k]? = some e →
        e.followUps.Sublist ((tr.drop (k + 1)).map TraceEntry.request)) ∧
    calls = (if ((tr.map TraceEntry.items).flatten).isEmpty then []
             else [(tr.map TraceEntry.items).flatten]) := by
  simp only [crawlSpider] at h
  rcases hloop : crawlLoop doFetch spider
      (if truthy cfg.qps || truthy cfg.delay then
         setAntiBot eng (cfg.qps.getD 1) (cfg.delay.getD 1)
       else eng).antiBot fuel spider.seeds []
    with _ | ⟨allItems, tr₀⟩ <;> simp only [hloop] at h
  · cases h
  · have hjoin := crawlLoop_items_join _ _ _ _ _ _ _ _ hloop
    simp only [List.nil_append] at hjoin
    by_cases hemp : allItems.isEmpty
    · rw [if_pos hemp] at h
      simp only [Option.some.injEq, Prod.mk.injEq] at h
      obtain ⟨-, -, htr, hcalls⟩ := h
      subst htr
      subst hcalls
      refine ⟨crawlLoop_trace_take _ _ _ _ _ _ _ _ hloop,
              crawlLoop_followups _ _ _ _ _ _ _ _ hloop, ?_⟩
      rw [← hjoin, if_pos hemp]
    · rw [if_neg hemp] at h
      simp only [Option.some.injEq, Prod.mk.injEq] at h
      obtain ⟨-, -, htr, hcalls⟩ := h
      subst htr
      subst hcalls
      refine ⟨crawlLoop_trace_take _ _ _ _ _ _ _ _ hloop,
              crawlLoop_followups _ _ _ _ _ _ _ _ hloop, ?_⟩
      rw [← hjoin, if_neg hemp]

/-- Concrete seed request for the engine witnesses (a feed-level request). -/
def wSeed : Request :=
  ⟨⟨"http", "w", "/feed"⟩, "GET", none, false, ⟨none, true, false, none⟩⟩

/-- Concrete follow-up request tagged `fetch_full`. -/
def wFollow : Request :=
  ⟨⟨"http", "w", "/a"⟩, "GET", none, false, ⟨none, false, true, none⟩⟩

/-- Concrete item for the engine witnesses. -/
def wItem : Item := ⟨"http://w/a", "t", "b", "s", none, none, "en"⟩

/-- Concrete fetch oracle: follow-up fetches fail, everything else succeeds. -/
def wFetch : Request → Option Response :=
  fun r => if r.metadata.fetchFull then none else some ⟨r.url, 200, "", r⟩

/-- Concrete spider: one seed, parse yields one item and one follow-up. -/
def wSpider : Spider := ⟨[wSeed], fun _ => ([wItem], [wFollow]), none⟩

/-- The dequeue trace of the concrete witness run. -/
def wTrace : List TraceEntry :=
  [⟨wSeed, none, [wItem], [wFollow]⟩, ⟨wFollow, none, [], []⟩]

/-- Witness for C5: a seed producing one item and one follow-up whose fetch
fails; two dequeues in order, one pipeline call carrying the item. -/
theorem crawlSpider_frontier_fifo_witness :
    ((wTrace.map TraceEntry.request).take wSpider.seeds.length = wSpider.seeds) ∧
    ([[wItem]] = if ((wTrace.map TraceEntry.items).flatten).isEmpty then []
                 else [(wTrace.map TraceEntry.items).flatten]) := by
  have h : crawlSpider ⟨none⟩ ⟨none, none⟩ wFetch wSpider (fun l => l.length) 2
      = some (1, ⟨none⟩, wTrace, [[wItem]]) := rfl
  have hh := crawlSpider_frontier_fifo ⟨none⟩ ⟨none, none⟩ wFetch wSpider
    (fun l => l.length) 2 1 ⟨none⟩ wTrace [[wItem]] h
  exact ⟨hh.1, hh.2.2⟩

/-- Claim C10: `crawl_spider` only ever sets the engine's `anti_bot` field and
never clears it: any call leaves it non-`none` when it was non-`none`; a call
whose config has neither (a truthy) qps nor delay leaves the stored middleware
unchanged, and that middleware throttles every request of that run; on a fresh
engine the same config yields no throttling at all. -/
theorem crawlSpider_antiBot_persistence (eng : CrawlerEngine) (cfg : CrawlConfig)
    (doFetch : Request → Option Response) (spider : Spider)
    (pipeline : List Item → Nat) (fuel : Nat)
    (hq : truthy cfg.qps = false) (hdl : truthy cfg.delay = false) :
    (∀ (cfg' : CrawlConfig)
       (res : Nat × CrawlerEngine × List TraceEntry × List (List Item)),
        crawlSpider eng cfg' doFetch spider pipeline fuel = some res →
        eng.antiBot ≠ none → res.2.1.antiBot ≠ none) ∧
    (∀ (m : AntiBotMiddleware)
       (res : Nat × CrawlerEngine × List TraceEntry × List (List Item)),
        eng.antiBot = some m →
        crawlSpider eng cfg doFetch spider pipeline fuel = some res →
        res.2.1.antiBot = some m ∧ ∀ e ∈ res.2.2.1, e.throttledBy = some m) ∧
    (∀ (res : Nat × CrawlerEngine × List TraceEntry × List (List Item)),
        eng.antiBot = none →
        crawlSpider eng cfg doFetch spider pipeline fuel = some res →
        res.2.1.antiBot = none ∧ ∀ e ∈ res.2.2.1, e.throttledBy = none) := by
  refine ⟨?_, ?_, ?_⟩
  · intro cfg' res hcall hne
    obtain ⟨hst, -⟩ := crawlSpider_state _ _ _ _ _ _ _ hcall
    rw [hst]
    split_ifs with hc
    · simp [setAntiBot]
    · exact hne
  · intro m res hm hcall
    obtain ⟨hst, hthr⟩ := crawlSpider_state _ _ _ _ _ _ _ hcall
    rw [hq, hdl] at hst
    simp at hst
    have hab : res.2.1.antiBot = some m := by rw [hst, hm]
    exact ⟨hab, fun e he => (hthr e he).trans hab⟩
  · intro res hm hcall
    obtain ⟨hst, hthr⟩ := crawlSpider_state _ _ _ _ _ _ _ hcall
    rw [hq, hdl] at hst
    simp at hst
    have hab : res.2.1.antiBot = none := by rw [hst, hm]
    exact ⟨hab, fun e he => (hthr e he).trans hab⟩

/-- Witness for C10: a reused engine carrying a middleware, a config with
neither qps nor delay. -/
theorem crawlSpider_antiBot_persistence_witness :
    ((0, (⟨some ⟨some 1, 1, true⟩⟩ : CrawlerEngine), ([] : List TraceEntry),
      ([] : List (List Item))) :
        Nat × CrawlerEngine × List TraceEntry × List (List Item)).2.1.antiBot
      = some ⟨some 1, 1, true⟩ :=
  ((crawlSpider_antiBot_persistence ⟨some ⟨some 1, 1, true⟩⟩ ⟨none, none⟩
      (fun _ => none) ⟨[], fun _ => ([], []), none⟩ (fun l => l.length) 0
      rfl rfl).2.1 ⟨some 1, 1, true⟩
      (0, ⟨some ⟨some 1, 1, true⟩⟩, [], []) rfl rfl).1

/-! ## RSS adapter lemmas and theorems (claims C6, C9) -/

lemma parseEntry_followups (sp : RSSSpider) (po : ParserOracle) (e : FeedEntry) :
    (parseEntry sp po e).2 =
      match e.link with
      | some l =>
          if sp.fetchFullContent ∧ (entryCleanBody po e).length < 500 then
            [{ url := l, method := "GET",
               metadata := { source := some sp.sourceName, fetchFull := true,
                             originalItemUrl := some l.render } }]
          else []
      | none => [] := by
  rcases hl : e.link with _ | l <;> simp [parseEntry, hl]

lemma rssParseEntries_sound (sp : RSSSpider) (po : ParserOracle) :
    ∀ (es : List FeedEntry), ∀ r ∈ (rssParseEntries sp po es).2,
      r.metadata.fetchFull = true ∧ r.method = "GET" ∧
      ∃ e ∈ es, e.link = some r.url ∧
        r.metadata.originalItemUrl = some r.url.render ∧
        sp.fetchFullContent = true ∧ (entryCleanBody po e).length < 500 := by
  intro es
  induction es with
  | nil => intro r hr; simp [rssParseEntries] at hr
  | cons e rest ih =>
      intro r hr
      simp only [rssParseEntries] at hr
      rw [List.mem_append] at hr
      rcases hr with hr | hr
      · rw [parseEntry_followups] at hr
        rcases hl : e.link with _ | l <;> rw [hl] at hr
        · simp at hr
        · split_ifs at hr with hc
          · rw [List.mem_singleton] at hr
            subst hr
            exact ⟨rfl, rfl, e, List.mem_cons_self e rest, hl, rfl, hc.1, hc.2⟩
          · simp at hr
      · obtain ⟨h1, h2, e', he', hrest⟩ := ih r hr
        exact ⟨h1, h2, e', List.mem_cons_of_mem e he', hrest⟩

lemma rssParseEntries_complete (sp : RSSSpider) (po : ParserOracle) :
    ∀ (es : List FeedEntry), ∀ e ∈ es, ∀ (l : Url), e.link = some l →
      sp.fetchFullContent = true → (entryCleanBody po e).length < 500 →
      ∃ r ∈ (rssParseEntries sp po es).2,
        r.url = l ∧ r.metadata.fetchFull = true ∧
        r.metadata.originalItemUrl = some l.render := by
  intro es
  induction es with
  | nil => intro e he; simp at he
  | cons e' rest ih =>
      intro e he l hl hffc hlen
      rcases List.mem_cons.mp he with he' | he'
      · subst he'
        refine ⟨{ url := l, method := "GET",
                  metadata := { source := some sp.sourceName, fetchFull := true,
                                originalItemUrl := some l.render } }, ?_, rfl, rfl, rfl⟩
        simp only [rssParseEntries, List.mem_append]
        left
        simp only [parseEntry_followups, hl]
        rw [if_pos ⟨hffc, hlen⟩]
        exact List.mem_singleton.mpr rfl
      · obtain ⟨r, hr, hprops⟩ := ih e he' l hl hffc hlen
        refine ⟨r, ?_, hprops⟩
        simp only [rssParseEntries, List.mem_append]
        exact Or.inr hr

/-- Claim C6: a follow-up request is emitted exactly for those (capped) feed
entries that have a URL, when full-content fetching is enabled and the
extracted cleaned body is shorter than 500 characters; every emitted follow-up
is a GET to the entry's URL, tagged `fetch_full` to route to
`parse_full_content`, and carries the original item's URL for correlation. -/
theorem rss_followup_condition (sp : RSSSpider) (po : ParserOracle)
    (entries : List FeedEntry) :
    (∀ r ∈ (rssParseFeed sp po entries).2,
        r.metadata.fetchFull = true ∧ r.method = "GET" ∧
        ∃ e ∈ rssCap sp entries, e.link = some r.url ∧
          r.metadata.originalItemUrl = some r.url.render ∧
          sp.fetchFullContent = true ∧ (entryCleanBody po e).length < 500) ∧
    (∀ e ∈ rssCap sp entries, ∀ (l : Url), e.link = some l →
        sp.fetchFullContent = true → (entryCleanBody po e).length < 500 →
        ∃ r ∈ (rssParseFeed sp po entries).2,
          r.url = l ∧ r.metadata.fetchFull = true ∧
          r.metadata.originalItemUrl = some l.render) :=
  ⟨rssParseEntries_sound sp po (rssCap sp entries),
   rssParseEntries_complete sp po (rssCap sp entries)⟩

/-- Witness for C6: one short-bodied entry with a URL, full-content fetching
enabled — the follow-up appears in the emitted request list, tagged and
correlated. -/
theorem rss_followup_condition_witness :
    ((rssParseFeed ⟨"s", ⟨"http", "f", "/feed"⟩, none, true⟩ ⟨fun s => s, fun _ => none⟩
        [{ link := some ⟨"http", "w", "/a"⟩, content := ["short"] }]).2.any
      (fun r => r.url == ⟨"http", "w", "/a"⟩ && r.metadata.fetchFull
                 && (r.metadata.originalItemUrl == some "http://w/a"))) = true := by
  obtain ⟨r, hr, h1, h2, h3⟩ :=
    (rss_followup_condition ⟨"s", ⟨"http", "f", "/feed"⟩, none, true⟩
        ⟨fun s => s, fun _ => none⟩
        [{ link := some ⟨"http", "w", "/a"⟩, content := ["short"] }]).2
      { link := some ⟨"http", "w", "/a"⟩, content := ["short"] } (by simp [rssCap])
      ⟨"http", "w", "/a"⟩ rfl rfl (by decide)
  rw [List.any_eq_true]
  refine ⟨r, hr, ?_⟩
  simp [h1, h2, h3, Url.render]

lemma rssParseFullContent_followups_nil (sp : RSSSpider) (po : ParserOracle)
    (pg : PageOracle) (parseErr : Response → Bool) (resp : Response) :
    (rssParseFullContent sp po pg parseErr resp).2 = [] := by
  unfold rssParseFullContent
  split_ifs <;> rfl

lemma rssParseEntries_followups_length (sp : RSSSpider) (po : ParserOracle) :
    ∀ (es : List FeedEntry), (rssParseEntries sp po es).2.length ≤ es.length := by
  intro es
  induction es with
  | nil => simp [rssParseEntries]
  | cons e rest ih =>
      simp only [rssParseEntries, List.length_append, List.length_cons]
      have h1 : (parseEntry sp po e).2.length ≤ 1 := by
        rw [parseEntry_followups]
        rcases e.link with _ | l
        · simp
        · split_ifs <;> simp
      omega

lemma crawlLoop_allFetchFull (sp : RSSSpider) (po : ParserOracle) (pg : PageOracle)
    (feedOf : Response → List FeedEntry) (parseErr : Response → Bool)
    (doFetch : Request → Option Response) (ab : Option AntiBotMiddleware) :
    ∀ (q : List Request) (fuel : Nat) (items : List Item),
      (∀ r ∈ q, r.metadata.fetchFull = true) → q.length ≤ fuel →
      ∃ res tr,
        crawlLoop doFetch (rssSpiderOf sp po pg feedOf parseErr) ab fuel q items
          = some (res, tr) ∧ tr.length = q.length := by
  intro q
  induction q with
  | nil =>
      intro fuel items _ _
      refine ⟨items, [], ?_, rfl⟩
      cases fuel <;> simp [crawlLoop]
  | cons r rest ih =>
      intro fuel items hfull hlen
      cases fuel with
      | zero => simp at hlen
      | succ fuel =>
          have hr : r.metadata.fetchFull = true := hfull r (List.mem_cons_self r rest)
          have hrest : ∀ x ∈ rest, x.metadata.fetchFull = true :=
            fun x hx => hfull x (List.mem_cons_of_mem r hx)
          rcases hd : doFetch r with _ | resp
          · obtain ⟨res, tr, hrec, hlen'⟩ := ih fuel items hrest (by simpa using hlen)
            refine ⟨res, ⟨r, ab, [], []⟩ :: tr, ?_, by simp [hlen']⟩
            simp only [crawlLoop, hd, hrec]
          · have hpr : engineParse (rssSpiderOf sp po pg feedOf parseErr) r resp
                = rssParseFullContent sp po pg parseErr resp := by
              simp [engineParse, hr, rssSpiderOf]
            have hnil : (rssParseFullContent sp po pg parseErr resp).2 = [] :=
              rssParseFullContent_followups_nil sp po pg parseErr resp
            obtain ⟨res, tr, hrec, hlen'⟩ :=
              ih fuel (items ++ (rssParseFullContent sp po pg parseErr resp).1)
                hrest (by simpa using hlen)
            refine ⟨res, ⟨r, ab, (rssParseFullContent sp po pg parseErr resp).1,
                          (rssParseFullContent sp po pg parseErr resp).2⟩ :: tr,
                    ?_, by simp [hlen']⟩
            simp only [crawlLoop, hd, hpr, hnil, List.append_nil, hrec]

/-- Claim C9: `parse_full_content` never emits follow-up requests (neither on
success nor on a caught parse error); consequently a frontier consisting of
`fetch_full`-tagged requests drains in exactly one dequeue per request, and an
RSS run's frontier drains after at most the seed plus one follow-up per
(capped) feed entry of the seed response. -/
theorem rssParseFullContent_bounded :
    (∀ (sp : RSSSpider) (po : ParserOracle) (pg : PageOracle)
       (parseErr : Response → Bool) (resp : Response),
        (rssParseFullContent sp po pg parseErr resp).2 = []) ∧
    (∀ (sp : RSSSpider) (po : ParserOracle) (pg : PageOracle)
       (feedOf : Response → List FeedEntry) (parseErr : Response → Bool)
       (doFetch : Request → Option Response) (ab : Option AntiBotMiddleware)
       (q : List Request) (fuel : Nat) (items : List Item),
        (∀ r ∈ q, r.metadata.fetchFull = true) → q.length ≤ fuel →
        ∃ res tr,
          crawlLoop doFetch (rssSpiderOf sp po pg feedOf parseErr) ab fuel q items
            = some (res, tr) ∧ tr.length = q.length) ∧
    (∀ (sp : RSSSpider) (po : ParserOracle) (pg : PageOracle)
       (feedOf : Response → List FeedEntry) (parseErr : Response → Bool)
       (doFetch : Request → Option Response) (ab : Option AntiBotMiddleware),
        ∃ res tr,
          crawlLoop doFetch (rssSpiderOf sp po pg feedOf parseErr) ab
              (1 + rssFeedSize sp feedOf doFetch) (rssSeeds sp) []
            = some (res, tr) ∧
          tr.length ≤ 1 + rssFeedSize sp feedOf doFetch) := by
  refine ⟨rssParseFullContent_followups_nil, crawlLoop_allFetchFull, ?_⟩
  intro sp po pg feedOf parseErr doFetch ab
  rcases hd : doFetch (rssSeedReq sp) with _ | resp
  · have hfs : rssFeedSize sp feedOf doFetch = 0 := by simp [rssFeedSize, hd]
    rw [hfs]
    refine ⟨[], [⟨rssSeedReq sp, ab, [], []⟩], ?_, by simp⟩
    simp [rssSeeds, crawlLoop, hd]
  · have hfs : rssFeedSize sp feedOf doFetch = (rssCap sp (feedOf resp)).length := by
      simp [rssFeedSize, hd]
    have hpr : engineParse (rssSpiderOf sp po pg feedOf parseErr) (rssSeedReq sp) resp
        = rssParse sp po pg feedOf parseErr resp := by
      simp [engineParse, rssSeedReq, rssSpiderOf]
    by_cases hif : resp.request.metadata.isFeed
    · have hparse : rssParse sp po pg feedOf parseErr resp
          = rssParseEntries sp po (rssCap sp (feedOf resp)) := by
        simp [rssParse, hif, rssParseFeed]
      have hfull := rssParseEntries_sound sp po (rssCap sp (feedOf resp))
      obtain ⟨res, tr, hrec, hlen⟩ :=
        crawlLoop_allFetchFull sp po pg feedOf parseErr doFetch ab
          (rssParseEntries sp po (rssCap sp (feedOf resp))).2
          (rssFeedSize sp feedOf doFetch)
          ([] ++ (rssParseEntries sp po (rssCap sp (feedOf resp))).1)
          (fun r hr => (hfull r hr).1)
          (by rw [hfs]; exact rssParseEntries_followups_length sp po _)
      refine ⟨res, ⟨rssSeedReq sp, ab,
                    (rssParseEntries sp po (rssCap sp (feedOf resp))).1,
                    (rssParseEntries sp po (rssCap sp (feedOf resp))).2⟩ :: tr, ?_, ?_⟩
      · have : 1 + rssFeedSize sp feedOf doFetch = rssFeedSize sp feedOf doFetch + 1 :=
          Nat.add_comm _ _
        rw [this]
        rw [List.nil_append] at hrec
        simp only [rssSeeds, crawlLoop, List.nil_append, hd, hpr, hparse, hrec]
      · have hle := rssParseEntries_followups_length sp po (rssCap sp (feedOf resp))
        simp only [List.length_cons, hlen]
        omega
    · have hparse : rssParse sp po pg feedOf parseErr resp
          = rssParseFullContent sp po pg parseErr resp := by
        simp [rssParse, hif]
      have hnil : (rssParseFullContent sp po pg parseErr resp).2 = [] :=
        rssParseFullContent_followups_nil sp po pg parseErr resp
      refine ⟨[] ++ (rssParseFullContent sp po pg parseErr resp).1,
              [⟨rssSeedReq sp, ab,
                (rssParseFullContent sp po pg parseErr resp).1,
                (rssParseFullContent sp po pg parseErr resp).2⟩], ?_, by simp⟩
      have : 1 + rssFeedSize sp feedOf doFetch = rssFeedSize sp feedOf doFetch + 1 :=
        Nat.add_comm _ _
      rw [this]
      simp only [rssSeeds, crawlLoop, hd, hpr, hparse]
      rw [hnil]
      simp [crawlLoop]

/-- Witness for C9: a concrete page response yields no follow-ups, and a
frontier of one `fetch_full` request drains in one step. -/
theorem rssParseFullContent_bounded_witness :
    (rssParseFullContent ⟨"s", ⟨"http", "f", "/feed"⟩, none, true⟩
        ⟨fun s => s, fun _ => none⟩ ⟨fun _ _ => none, fun _ _ => []⟩ (fun _ => false)
        ⟨⟨"http", "w", "/a"⟩, 200, "page", wFollow⟩).2 = [] ∧
    (crawlLoop (fun _ => none)
        (rssSpiderOf ⟨"s", ⟨"http", "f", "/feed"⟩, none, true⟩
          ⟨fun s => s, fun _ => none⟩ ⟨fun _ _ => none, fun _ _ => []⟩
          (fun _ => []) (fun _ => false))
        none 1 [wFollow] []).isSome = true := by
  constructor
  · exact rssParseFullContent_bounded.1 ⟨"s", ⟨"http", "f", "/feed"⟩, none, true⟩
      ⟨fun s => s, fun _ => none⟩ ⟨fun _ _ => none, fun _ _ => []⟩ (fun _ => false)
      ⟨⟨"http", "w", "/a"⟩, 200, "page", wFollow⟩
  · obtain ⟨res, tr, heq, -⟩ :=
      rssParseFullContent_bounded.2.1 ⟨"s", ⟨"http", "f", "/feed"⟩, none, true⟩
        ⟨fun s => s, fun _ => none⟩ ⟨fun _ _ => none, fun _ _ => []⟩
        (fun _ => []) (fun _ => false) (fun _ => none) none
        [wFollow] 1 [] (by intro r hr; rw [List.mem_singleton] at hr; rw [hr]; rfl)
        (by simp)
    rw [heq]
    rfl

end LeoBrain
